import Mathlib

/-!
Verification development for the `cloudfront-image-optimizer` repository.

The repository consists of two stateless Lambda@Edge handlers:

* the viewer-request handler (`lambda-functions/viewer-request/index.mjs`),
  which rewrites a request URI of the form `/{subpath}/{filename}.{ext}`
  carrying a `d={w}x{h}` query parameter into the canonical derived key
  `/resize/{subpath}/{w}x{h}/{format}/{filename}.{ext}`;

* the origin-response handler, which, on a 404/403 from the origin, parses
  the derived key, validates the dimensions, fetches the original object,
  resizes it, fire-and-forgets a write of the result back to the store and
  returns the resized bytes inline, base64 encoded.

The handlers are embedded shallowly below.  Strings are treated as their
`List Char` character data; JavaScript regular-expression matching is
embedded by explicit leftmost/greedy search functions whose behaviour is
derived from the backtracking semantics of the concrete patterns in the
source (`/\/(.+)\/([^/]+)\.([^.]+)$/` and
`/^resize\/(.+)\/(\d+)x(\d+)\/([^/]+)\/(.+)$/`).  The `.` character class
of a JavaScript regex matches every character except a line terminator,
captured by `isRegexDot` below.  External collaborators (S3, sharp) are
parameters of the orchestrator; the I/O it issues is returned explicitly.
-/

/-- One CloudFront header entry `{ key, value }`. -/
structure HeaderEntry where
  key : String
  value : String
deriving DecidableEq, Repr

/-- A CloudFront request record: `uri`, `querystring`, `headers`, `method`. -/
structure CFRequest where
  uri : String
  querystring : String
  headers : List (String × List HeaderEntry)
  method : String
deriving DecidableEq, Repr

/-- A CloudFront response record as received by the origin-response hook. -/
structure CFResponse where
  status : String
  statusDescription : String
  headers : List (String × List HeaderEntry)
deriving DecidableEq, Repr

/-- Hex digit value, as used by percent decoding. -/
def hexVal (c : Char) : Option Nat :=
  if '0' ≤ c ∧ c ≤ '9' then some (c.toNat - '0'.toNat)
  else if 'a' ≤ c ∧ c ≤ 'f' then some (c.toNat - 'a'.toNat + 10)
  else if 'A' ≤ c ∧ c ≤ 'F' then some (c.toNat - 'A'.toNat + 10)
  else none

/-- `application/x-www-form-urlencoded` decoding as performed by
`URLSearchParams`: `+` becomes a space and a valid `%XX` escape the byte
`XX`; malformed escapes are kept literally. -/
def formDecodeAux : List Char → List Char
  | [] => []
  | '+' :: rest => ' ' :: formDecodeAux rest
  | '%' :: h1 :: h2 :: rest =>
    match hexVal h1, hexVal h2 with
    | some a, some b => Char.ofNat (16 * a + b) :: formDecodeAux rest
    | _, _ => '%' :: formDecodeAux (h1 :: h2 :: rest)
  | c :: rest => c :: formDecodeAux rest

/-- Split a character list on every occurrence of `c`
(the semantics of JavaScript `String.prototype.split` with a one-character
separator: `"300x".split("x") = ["300", ""]`). -/
def splitOnChar (c : Char) : List Char → List (List Char)
  | [] => [[]]
  | x :: rest =>
    match splitOnChar c rest with
    | [] => [[]]
    | h :: t => if x = c then [] :: h :: t else (x :: h) :: t

/-- Split at the first occurrence of `c`: `l = before ++ c :: after` with
`before` free of `c`. -/
def breakAtFirst (c : Char) : List Char → Option (List Char × List Char)
  | [] => none
  | x :: xs =>
    if x = c then some ([], xs)
    else (breakAtFirst c xs).map (fun pr => (x :: pr.1, pr.2))

/-- Split at the last occurrence of `c`: `l = before ++ c :: after` with
`after` free of `c`. -/
def breakAtLast (c : Char) (l : List Char) : Option (List Char × List Char) :=
  (breakAtFirst c l.reverse).map (fun pr => (pr.2.reverse, pr.1.reverse))

/-- The parse of one `name=value` pair by `URLSearchParams`: the split is at
the first `=`; a pair without `=` has the empty value. -/
def parsePair (pair : List Char) : List Char × List Char :=
  match breakAtFirst '=' pair with
  | some kv => kv
  | none => (pair, [])

/-- The parse of a query string by `new URLSearchParams(qs)`: an optional
leading `?` is stripped, the string splits on `&`, empty segments are
skipped, each segment splits at its first `=` and both sides are
form-decoded. -/
def parseQueryParams (qs : String) : List (String × String) :=
  let l := if qs.data.head? = some '?' then qs.data.tail else qs.data
  ((splitOnChar '&' l).filter (fun p => p ≠ [])).map (fun p =>
    let kv := parsePair p
    (⟨formDecodeAux kv.1⟩, ⟨formDecodeAux kv.2⟩))

/-- The character class matched by `.` in a JavaScript regex (no `s` flag):
every character except a line terminator. -/
def isRegexDot (c : Char) : Bool :=
  !(c = '\n' || c = '\r' || c.toNat = 8232 || c.toNat = 8233)

/-- Leftmost viable start of the viewer-request URI pattern
`/\/(.+)\/([^/]+)\.([^.]+)$/` inside the prefix that precedes the last `/`:
the first `/` whose remainder (the `(.+)` capture) is non-empty and free of
line terminators. -/
def findPathStart : List Char → Option (List Char)
  | [] => none
  | c :: rest =>
    if c = '/' ∧ rest ≠ [] ∧ rest.all isRegexDot then some rest
    else findPathStart rest

/-- The match of `uri.match(/\/(.+)\/([^/]+)\.([^.]+)$/)`, returning the
captures `(path, filename, extension)`.  By the backtracking semantics of
the pattern: the extension capture `([^.]+)$` is dot-free and runs to the
end of the string, so the literal `\.` can only sit at the last `.` of the
string, and the extension — which may contain `/` — is everything after it
(non-empty); the filename capture `([^/]+)` is slash-free and ends at that
dot, so the second literal `/` can only be the last `/` before the last
`.`, with a non-empty filename in between (the filename may contain `.`);
the start is the leftmost `/` from which the `(.+)` capture reaching the
filename's `/` is non-empty and line-terminator free.  So `/a/b.c/d`
matches with captures `(a, b, c/d)`, while `/a/b.` or `/a.b/c` do not
match. -/
def uriMatchL (l : List Char) : Option (List Char × List Char × List Char) :=
  match breakAtLast '.' l with
  | none => none
  | some (beforeDot, ext) =>
    if ext = [] then none
    else
      match breakAtLast '/' beforeDot with
      | none => none
      | some (pre, fnam) =>
        if fnam = [] then none
        else
          match findPathStart pre with
          | some path => some (path, fnam, ext)
          | none => none

/-- `sub` occurs as a contiguous substring (JavaScript
`String.prototype.includes`). -/
def listInfix (sub : List Char) : List Char → Bool
  | [] => sub.isEmpty
  | c :: rest => sub.isPrefixOf (c :: rest) || listInfix sub rest

/-- JavaScript `s.includes(sub)`. -/
def strContainsSub (s sub : String) : Bool :=
  listInfix sub.data s.data

/-- `headers[k]?.[0]?.value`: the value of the first entry under key `k`,
when the key is present with a non-empty entry list. -/
def getHeaderFirst (headers : List (String × List HeaderEntry)) (k : String) :
    Option String :=
  match headers.lookup k with
  | some (e :: _) => some e.value
  | _ => none

/-- The rewritten URI template of the viewer-request handler:
`` `/resize/${path}/${dimension[0]}x${dimension[1]}/${format}/${filename}.${extension}` ``. -/
def rewrittenUri (path d0 d1 format filename extension : String) : String :=
  "/resize/" ++ path ++ "/" ++ d0 ++ "x" ++ d1 ++ "/" ++ format ++ "/" ++
    filename ++ "." ++ extension

/-- The viewer-request handler (`lambda-functions/viewer-request/index.mjs`).
In source order: return the request unchanged when the query string has no
`d` parameter; when the URI does not match
`/\/(.+)\/([^/]+)\.([^.]+)$/`; or when the `d` value does not split on `x`
into exactly two parts (`dimension.length !== 2`; the parts may be empty).
Otherwise rewrite only the `uri` field, with format `webp` when the first
`accept` header value contains the substring `webp` and the original
extension otherwise. -/
def viewerRequestHandler (request : CFRequest) : CFRequest :=
  match (parseQueryParams request.querystring).lookup "d" with
  | none => request
  | some dval =>
    match uriMatchL request.uri.data with
    | none => request
    | some (path, filename, extension) =>
      match splitOnChar 'x' dval.data with
      | [d0, d1] =>
        let format : String :=
          match getHeaderFirst request.headers "accept" with
          | some a => if strContainsSub a "webp" then "webp" else ⟨extension⟩
          | none => ⟨extension⟩
        { request with
            uri := rewrittenUri ⟨path⟩ ⟨d0⟩ ⟨d1⟩ format ⟨filename⟩ ⟨extension⟩ }
      | _ => request

/-- The inner part of the derived-key pattern
`/^resize\/(.+)\/(\d+)x(\d+)\/([^/]+)\/(.+)$/` that follows the subpath
capture and its `/`: `(\d+)x(\d+)\/([^/]+)\/(.+)$`.  The digit and
non-slash classes leave the backtracking no freedom, so the match is a
maximal digit run followed by `x`, a maximal digit run followed by `/`, a
maximal non-slash run followed by `/`, and a non-empty line-terminator
free remainder.  Returns `(width, height, format, filename)`. -/
def matchRpat (l : List Char) :
    Option (List Char × List Char × List Char × List Char) :=
  match l.dropWhile Char.isDigit with
  | 'x' :: r2 =>
    if (l.takeWhile Char.isDigit).isEmpty then none
    else
      match r2.dropWhile Char.isDigit with
      | '/' :: r4 =>
        if (r2.takeWhile Char.isDigit).isEmpty then none
        else
          match r4.dropWhile (fun c => c != '/') with
          | '/' :: fn =>
            if (r4.takeWhile (fun c => c != '/')).isEmpty then none
            else if !fn.isEmpty && fn.all isRegexDot then
              some (l.takeWhile Char.isDigit, r2.takeWhile Char.isDigit,
                r4.takeWhile (fun c => c != '/'), fn)
            else none
          | _ => none
      | _ => none
  | _ => none

/-- All decompositions `l = P ++ '/' :: R`, listed with `P` increasing. -/
def splitsAtSlash : List Char → List (List Char × List Char)
  | [] => []
  | c :: rest =>
    let tails := (splitsAtSlash rest).map (fun pr => (c :: pr.1, pr.2))
    if c = '/' then ([], rest) :: tails else tails

/-- Viability of one decomposition for the derived-key pattern: the
subpath capture `(.+)` is non-empty and line-terminator free, and the
remainder matches the rest of the pattern. -/
def keyCandOk (pr : List Char × List Char) : Bool :=
  !pr.1.isEmpty && pr.1.all isRegexDot && (matchRpat pr.2).isSome

/-- The match of `key.match(/^resize\/(.+)\/(\d+)x(\d+)\/([^/]+)\/(.+)$/)`,
returning `(subpath, widthStr, heightStr, format, filename)`.  After the
anchored literal `resize/`, the greedy subpath capture makes the engine
try the decompositions at `/` from the rightmost one leftwards and commit
to the first viable one. -/
def matchKeyPattern (key : List Char) :
    Option (List Char × List Char × List Char × List Char × List Char) :=
  if key.take 7 = "resize/".data then
    match (splitsAtSlash (key.drop 7)).reverse.find? keyCandOk with
    | some pr =>
      match matchRpat pr.2 with
      | some (w, h, f, fn) => some (pr.1, w, h, f, fn)
      | none => none
    | none => none
  else none

/-- `parseInt(s, 10)` on a string of decimal digits. -/
def digitsToNat (l : List Char) : Nat :=
  l.foldl (fun acc c => acc * 10 + (c.toNat - '0'.toNat)) 0

/-- The base64 alphabet. -/
def base64Table : List Char :=
  "ABCDEFGHIJKLMNOPQRSTUVWXYZabcdefghijklmnopqrstuvwxyz0123456789+/".data

/-- The base64 digit for a 6-bit value. -/
def b64Char (n : Nat) : Char :=
  base64Table.getD n 'A'

/-- Standard base64 encoding of a byte list, three bytes to four digits
with `=` padding (`Buffer.prototype.toString('base64')`). -/
def base64Chunks : List Nat → List Char
  | [] => []
  | [a] => [b64Char (a / 4), b64Char (a % 4 * 16), '=', '=']
  | [a, b] => [b64Char (a / 4), b64Char (a % 4 * 16 + b / 16), b64Char (b % 16 * 4), '=']
  | a :: b :: c :: rest =>
    b64Char (a / 4) :: b64Char (a % 4 * 16 + b / 16) ::
      b64Char (b % 16 * 4 + c / 64) :: b64Char (c % 64) :: base64Chunks rest

/-- `buffer.toString('base64')`. -/
def base64Encode (bytes : List Nat) : String :=
  ⟨base64Chunks bytes⟩

/-- The result of `{ ...response.headers, 'content-type': v }`: keys keep
their place, an existing `content-type` binding is overwritten in place, a
missing one is appended. -/
def setHeader (hs : List (String × List HeaderEntry)) (k : String)
    (v : List HeaderEntry) : List (String × List HeaderEntry) :=
  if (hs.lookup k).isSome then
    hs.map (fun pr => if pr.1 = k then (k, v) else pr)
  else hs ++ [(k, v)]

/-- `const BUCKET = '__S3_BUCKET_PLACEHOLDER__'`. -/
def BUCKET : String := "__S3_BUCKET_PLACEHOLDER__"

/-- `const MAX_DIMENSION = 4000`. -/
def MAX_DIMENSION : Nat := 4000

/-- `const CACHE_CONTROL = 'max-age=86400'`. -/
def CACHE_CONTROL : String := "max-age=86400"

/-- The value returned by the origin-response handler: either the
triggering response passed through unchanged, or the synthesized success
response `{ status: 200, statusDescription, body, bodyEncoding, headers }`. -/
inductive OrchResult where
  | passThrough (resp : CFResponse)
  | synthesized (status : Nat) (statusDescription : String) (body : String)
      (bodyEncoding : String) (headers : List (String × List HeaderEntry))
deriving DecidableEq, Repr

/-- One `PutObjectCommand` issued to the object store. -/
structure S3PutReq where
  bucket : String
  objKey : String
  body : List Nat
  contentType : String
  cacheControl : String
deriving DecidableEq, Repr

/-- The observable outcome of one orchestrator invocation: its returned
value together with the object-store reads and writes it issued. -/
structure OrchOutput where
  result : OrchResult
  s3Gets : List (String × String)
  s3Puts : List S3PutReq
deriving DecidableEq, Repr

/-- The origin-response handler (the resize orchestrator).  `s3Get` models
`GetObjectCommand` (`none` is a thrown error), `sharpResize` models the
`sharp(...).rotate().resize(w, h, {fit: inside, withoutEnlargement}).
toFormat(sharpFormat).toBuffer()` pipeline (`none` is a thrown error), and
`putOutcome` is the settlement of the fire-and-forget
`PutObjectCommand` promise, which the handler only ever logs.  In source
order: pass the response through unless its status is `'404'` or `'403'`;
strip the leading slash off the request URI; pass through when the key
does not match `KEY_PATTERN` or a parsed dimension is out of bounds;
otherwise fetch `origin/{subpath}/{filename}`, resize, start the write of
the derived key and return the synthesized 200 response; any error thrown
by the fetch or the resize is caught and the response passed through. -/
def originResponseHandler (request : CFRequest) (response : CFResponse)
    (s3Get : String → String → Option (List Nat))
    (sharpResize : List Nat → Nat → Nat → String → Option (List Nat))
    (putOutcome : Except String Unit) : OrchOutput :=
  if response.status ≠ "404" ∧ response.status ≠ "403" then
    ⟨.passThrough response, [], []⟩
  else
    match matchKeyPattern (request.uri.data.drop 1) with
    | none => ⟨.passThrough response, [], []⟩
    | some (subpath, widthStr, heightStr, format, filename) =>
      if digitsToNat widthStr ≤ 0 ∨ digitsToNat heightStr ≤ 0 ∨
          digitsToNat widthStr > MAX_DIMENSION ∨ digitsToNat heightStr > MAX_DIMENSION then
        ⟨.passThrough response, [], []⟩
      else
        match s3Get BUCKET ("origin/" ++ (⟨subpath⟩ : String) ++ "/" ++ (⟨filename⟩ : String)) with
        | none =>
          ⟨.passThrough response,
            [(BUCKET, "origin/" ++ (⟨subpath⟩ : String) ++ "/" ++ (⟨filename⟩ : String))], []⟩
        | some imageBuffer =>
          match sharpResize imageBuffer (digitsToNat widthStr) (digitsToNat heightStr)
              (if (⟨format⟩ : String) = "jpg" then "jpeg" else (⟨format⟩ : String)) with
          | none =>
            ⟨.passThrough response,
              [(BUCKET, "origin/" ++ (⟨subpath⟩ : String) ++ "/" ++ (⟨filename⟩ : String))], []⟩
          | some resizedBuffer =>
            ⟨.synthesized 200 "OK" (base64Encode resizedBuffer) "base64"
                (setHeader response.headers "content-type"
                  [⟨"Content-Type",
                    "image/" ++ (if (⟨format⟩ : String) = "jpg" then "jpeg" else (⟨format⟩ : String))⟩]),
              [(BUCKET, "origin/" ++ (⟨subpath⟩ : String) ++ "/" ++ (⟨filename⟩ : String))],
              [⟨BUCKET, ⟨request.uri.data.drop 1⟩, resizedBuffer,
                "image/" ++ (if (⟨format⟩ : String) = "jpg" then "jpeg" else (⟨format⟩ : String)),
                CACHE_CONTROL⟩]⟩

/-! ### Helper lemmas -/

theorem strData_append (a b : String) : (a ++ b).data = a.data ++ b.data := by
  cases a
  cases b
  rfl

theorem takeWhile_append_all {p : Char → Bool} {xs : List Char} (ys : List Char)
    (h : xs.all p) : (xs ++ ys).takeWhile p = xs ++ ys.takeWhile p := by
  induction xs with
  | nil => rfl
  | cons c rest ih =>
    simp only [List.all_cons, Bool.and_eq_true] at h
    simp [List.takeWhile_cons, h.1, ih h.2]

theorem dropWhile_append_all {p : Char → Bool} {xs : List Char} (ys : List Char)
    (h : xs.all p) : (xs ++ ys).dropWhile p = ys.dropWhile p := by
  induction xs with
  | nil => rfl
  | cons c rest ih =>
    simp only [List.all_cons, Bool.and_eq_true] at h
    simp [List.dropWhile_cons, h.1, ih h.2]

theorem isEmpty_false_of_ne_nil {xs : List Char} (h : xs ≠ []) :
    xs.isEmpty = false := by
  cases xs with
  | nil => exact absurd rfl h
  | cons c rest => rfl

/-- On input in the exact shape produced by the rewriter, the inner
derived-key pattern matches and recovers each component. -/
theorem matchRpat_exact (w h f fn : List Char)
    (hw : w ≠ []) (hwd : w.all Char.isDigit)
    (hh : h ≠ []) (hhd : h.all Char.isDigit)
    (hf : f ≠ []) (hfs : f.all (fun c => c != '/'))
    (hfn : fn ≠ []) (hfnd : fn.all isRegexDot) :
    matchRpat (w ++ 'x' :: (h ++ '/' :: (f ++ '/' :: fn))) = some (w, h, f, fn) := by
  have dx : 'x'.isDigit = false := by decide
  have ds : '/'.isDigit = false := by decide
  have dq : ('/' != '/') = false := by decide
  have e1 : (w ++ 'x' :: (h ++ '/' :: (f ++ '/' :: fn))).takeWhile Char.isDigit = w := by
    rw [takeWhile_append_all _ hwd, List.takeWhile_cons, dx]
    simp
  have e2 : (w ++ 'x' :: (h ++ '/' :: (f ++ '/' :: fn))).dropWhile Char.isDigit =
      'x' :: (h ++ '/' :: (f ++ '/' :: fn)) := by
    rw [dropWhile_append_all _ hwd, List.dropWhile_cons, dx]
    simp
  have e3 : (h ++ '/' :: (f ++ '/' :: fn)).takeWhile Char.isDigit = h := by
    rw [takeWhile_append_all _ hhd, List.takeWhile_cons, ds]
    simp
  have e4 : (h ++ '/' :: (f ++ '/' :: fn)).dropWhile Char.isDigit =
      '/' :: (f ++ '/' :: fn) := by
    rw [dropWhile_append_all _ hhd, List.dropWhile_cons, ds]
    simp
  have e5 : (f ++ '/' :: fn).takeWhile (fun c => c != '/') = f := by
    rw [takeWhile_append_all _ hfs, List.takeWhile_cons, dq]
    simp
  have e6 : (f ++ '/' :: fn).dropWhile (fun c => c != '/') = '/' :: fn := by
    rw [dropWhile_append_all _ hfs, List.dropWhile_cons, dq]
    simp
  unfold matchRpat
  simp only [e1, e2, e3, e4, e5, e6]
  simp [isEmpty_false_of_ne_nil hw, isEmpty_false_of_ne_nil hh,
    isEmpty_false_of_ne_nil hf, isEmpty_false_of_ne_nil hfn, hfnd]

/-- A successful inner match needs at least two slashes in its input. -/
theorem matchRpat_some_two_slashes {l : List Char}
    (hs : (matchRpat l).isSome = true) : 2 ≤ l.count '/' := by
  unfold matchRpat at hs
  split at hs
  case h_2 => simp at hs
  case h_1 r2 heq1 =>
    split at hs
    case isTrue => simp at hs
    case isFalse =>
      split at hs
      case h_2 => simp at hs
      case h_1 r4 heq2 =>
        split at hs
        case isTrue => simp at hs
        case isFalse =>
          split at hs
          case h_2 => simp at hs
          case h_1 fn heq3 =>
            have s1 : l.count '/' ≥ (l.dropWhile Char.isDigit).count '/' :=
              (List.dropWhile_sublist _).count_le _
            have s2 : r2.count '/' ≥ (r2.dropWhile Char.isDigit).count '/' :=
              (List.dropWhile_sublist _).count_le _
            have s3 : r4.count '/' ≥ (r4.dropWhile (fun c => c != '/')).count '/' :=
              (List.dropWhile_sublist _).count_le _
            rw [heq1] at s1
            rw [heq2] at s2
            rw [heq3] at s3
            simp [List.count_cons] at s1 s2 s3
            omega

/-- A slash-free list has no slash decomposition. -/
theorem splitsAtSlash_eq_nil {xs : List Char} (h : xs.all (fun c => c != '/')) :
    splitsAtSlash xs = [] := by
  induction xs with
  | nil => rfl
  | cons c rest ih =>
    simp only [List.all_cons, Bool.and_eq_true] at h
    have hc : ¬ c = '/' := by simpa using h.1
    simp [splitsAtSlash, hc, ih h.2]

/-- Slash decompositions of a concatenation. -/
theorem splitsAtSlash_append (xs zs : List Char) :
    splitsAtSlash (xs ++ zs) =
      (splitsAtSlash xs).map (fun pr => (pr.1, pr.2 ++ zs)) ++
      (splitsAtSlash zs).map (fun pr => (xs ++ pr.1, pr.2)) := by
  induction xs with
  | nil => simp [splitsAtSlash]
  | cons c rest ih =>
    by_cases hc : c = '/'
    · subst hc
      simp [splitsAtSlash, ih, List.map_map, Function.comp_def]
    · simp [splitsAtSlash, hc, ih, List.map_map, Function.comp_def]

theorem digit_ne_slash {x : Char} (h : x.isDigit = true) : (x != '/') = true := by
  rcases eq_or_ne x '/' with rfl | hne
  · exact absurd h (by decide)
  · simpa using hne

theorem all_ne_slash_of_all_digit {xs : List Char} (h : xs.all Char.isDigit) :
    xs.all (fun c => c != '/') := by
  rw [List.all_eq_true] at h ⊢
  exact fun x hx => digit_ne_slash (h x hx)

theorem count_slash_eq_zero {xs : List Char}
    (h : xs.all (fun c => c != '/')) : xs.count '/' = 0 := by
  rw [List.count_eq_zero]
  intro hmem
  have := List.all_eq_true.mp h _ hmem
  simp at this

theorem matchRpat_none_of_count {l : List Char} (h : l.count '/' < 2) :
    matchRpat l = none := by
  cases hm : matchRpat l with
  | none => rfl
  | some v =>
    have := matchRpat_some_two_slashes (l := l) (by rw [hm]; rfl)
    omega

/-- The derived-key pattern, run on a key in the exact shape that the
rewriter emits (subpath non-empty and line-terminator free; width and
height non-empty digit runs; format and filename non-empty and slash free,
filename line-terminator free), matches and recovers every component. -/
theorem matchKeyPattern_exact (sub w h f fn : List Char)
    (hsub : sub ≠ []) (hsubd : sub.all isRegexDot)
    (hw : w ≠ []) (hwd : w.all Char.isDigit)
    (hh : h ≠ []) (hhd : h.all Char.isDigit)
    (hf : f ≠ []) (hfs : f.all (fun c => c != '/'))
    (hfn : fn ≠ []) (hfnd : fn.all isRegexDot)
    (hfns : fn.all (fun c => c != '/')) :
    matchKeyPattern
        ("resize/".data ++ (sub ++ '/' :: (w ++ 'x' :: (h ++ '/' :: (f ++ '/' :: fn))))) =
      some (sub, w, h, f, fn) := by
  have hA : (w ++ 'x' :: h).all (fun c => c != '/') := by
    rw [List.all_append, List.all_cons]
    simp [all_ne_slash_of_all_digit hwd, all_ne_slash_of_all_digit hhd]
  have sp_fn : splitsAtSlash fn = [] := splitsAtSlash_eq_nil hfns
  have sp_f : splitsAtSlash f = [] := splitsAtSlash_eq_nil hfs
  have sp_A : splitsAtSlash (w ++ 'x' :: h) = [] := splitsAtSlash_eq_nil hA
  have sp_C : splitsAtSlash (f ++ '/' :: fn) = [(f, fn)] := by
    rw [splitsAtSlash_append]
    simp [splitsAtSlash, sp_f, sp_fn]
  have hassoc : w ++ 'x' :: (h ++ '/' :: (f ++ '/' :: fn)) =
      (w ++ 'x' :: h) ++ '/' :: (f ++ '/' :: fn) := by
    simp
  have sp_rest : splitsAtSlash (w ++ 'x' :: (h ++ '/' :: (f ++ '/' :: fn))) =
      [(w ++ 'x' :: h, f ++ '/' :: fn), ((w ++ 'x' :: h) ++ '/' :: f, fn)] := by
    rw [hassoc, splitsAtSlash_append, sp_A]
    simp [splitsAtSlash, sp_C]
  have sp_S : splitsAtSlash
        (sub ++ '/' :: (w ++ 'x' :: (h ++ '/' :: (f ++ '/' :: fn)))) =
      (splitsAtSlash sub).map
          (fun pr => (pr.1, pr.2 ++ '/' :: (w ++ 'x' :: (h ++ '/' :: (f ++ '/' :: fn))))) ++
        [(sub, w ++ 'x' :: (h ++ '/' :: (f ++ '/' :: fn))),
          (sub ++ '/' :: (w ++ 'x' :: h), f ++ '/' :: fn),
          (sub ++ '/' :: ((w ++ 'x' :: h) ++ '/' :: f), fn)] := by
    rw [splitsAtSlash_append]
    simp [splitsAtSlash, sp_rest]
  have mfn : matchRpat fn = none :=
    matchRpat_none_of_count (by rw [count_slash_eq_zero hfns]; omega)
  have mC : matchRpat (f ++ '/' :: fn) = none := by
    refine matchRpat_none_of_count ?_
    rw [List.count_append, count_slash_eq_zero hfs, List.count_cons,
      count_slash_eq_zero hfns]
    simp
  have mrest : matchRpat (w ++ 'x' :: (h ++ '/' :: (f ++ '/' :: fn))) =
      some (w, h, f, fn) :=
    matchRpat_exact w h f fn hw hwd hh hhd hf hfs hfn hfnd
  have hfind : ((splitsAtSlash
        (sub ++ '/' :: (w ++ 'x' :: (h ++ '/' :: (f ++ '/' :: fn))))).reverse.find?
          keyCandOk) =
      some (sub, w ++ 'x' :: (h ++ '/' :: (f ++ '/' :: fn))) := by
    rw [sp_S]
    rw [List.reverse_append]
    show List.find? keyCandOk
        ([(sub ++ '/' :: ((w ++ 'x' :: h) ++ '/' :: f), fn),
          (sub ++ '/' :: (w ++ 'x' :: h), f ++ '/' :: fn),
          (sub, w ++ 'x' :: (h ++ '/' :: (f ++ '/' :: fn)))] ++ _) = _
    rw [List.find?_append]
    rw [List.find?_cons_of_neg _ (by simp [keyCandOk, mfn]),
      List.find?_cons_of_neg _ (by simp [keyCandOk, mC]),
      List.find?_cons_of_pos _ (by simp [keyCandOk, mrest, isEmpty_false_of_ne_nil hsub, hsubd])]
    rfl
  unfold matchKeyPattern
  rw [show (7 : Nat) = ("resize/".data).length from rfl, List.take_left, List.drop_left]
  rw [if_pos rfl, hfind]
  simp [mrest]

/-! ### Concrete fixtures used by witnesses and counterexamples -/

/-- The spec scenario: `/blog/posts/cover.jpg`, `d=300x300`, Accept with
`webp`. -/
def exReqWebp : CFRequest :=
  { uri := "/blog/posts/cover.jpg", querystring := "d=300x300",
    headers := [("accept", [⟨"Accept", "text/html,image/webp,*/*"⟩])],
    method := "GET" }

/-- A request whose `d` value `300x` splits on `x` into two parts, the
second empty. -/
def exReqEmptyDim : CFRequest :=
  { uri := "/img/photo.png", querystring := "d=300x", headers := [],
    method := "GET" }

/-- A request whose `d` value `invalid` splits on `x` into one part. -/
def exReqNoDim : CFRequest :=
  { uri := "/img/photo.png", querystring := "d=invalid", headers := [],
    method := "GET" }

/-! ### Claim theorems: the URI Rewriter -/

theorem viewer_only_uri (request : CFRequest) :
    ∃ u, viewerRequestHandler request = { request with uri := u } := by
  unfold viewerRequestHandler
  split
  · exact ⟨request.uri, rfl⟩
  · split
    · exact ⟨request.uri, rfl⟩
    · split
      · exact ⟨_, rfl⟩
      · exact ⟨request.uri, rfl⟩

/-- C9: the Rewriter is a total function on every request event: it always
returns, and its result differs from its input in at most the `uri` field
(when the `uri` is also unchanged the result is the input request
itself). -/
theorem C9_viewer_total_only_uri (request : CFRequest) :
    viewerRequestHandler request =
      { request with uri := (viewerRequestHandler request).uri } := by
  obtain ⟨u, hu⟩ := viewer_only_uri request
  rw [hu]

/-- C1: when the query string has a `d` parameter, the URI matches the
path pattern with captures `(path, filename, extension)` and the `d` value
splits on `x` into exactly the two raw parts `d0` and `d1`, the Rewriter
returns the request with only its `uri` replaced by
`/resize/{path}/{d0}x{d1}/{format}/{filename}.{extension}`, where the
format is `webp` when the first `accept` header value contains the
substring `webp` and the original extension otherwise; the query string,
headers and method pass through unchanged. -/
theorem C1_viewer_rewrite (request : CFRequest) (dval : String)
    (path filename extension d0 d1 : List Char)
    (hd : (parseQueryParams request.querystring).lookup "d" = some dval)
    (hu : uriMatchL request.uri.data = some (path, filename, extension))
    (hsplit : splitOnChar 'x' dval.data = [d0, d1]) :
    viewerRequestHandler request =
      { request with
          uri := rewrittenUri ⟨path⟩ ⟨d0⟩ ⟨d1⟩
            (match getHeaderFirst request.headers "accept" with
              | some a => if strContainsSub a "webp" then "webp" else ⟨extension⟩
              | none => ⟨extension⟩)
            ⟨filename⟩ ⟨extension⟩ } := by
  simp only [viewerRequestHandler, hd, hu, hsplit]

/-- Witness for C1 at the spec scenario: `/blog/posts/cover.jpg` with
`d=300x300` and a `webp`-accepting client rewrites to
`/resize/blog/posts/300x300/webp/cover.jpg`. -/
theorem C1_viewer_rewrite_witness :
    viewerRequestHandler exReqWebp =
      { exReqWebp with uri := "/resize/blog/posts/300x300/webp/cover.jpg" } :=
  (C1_viewer_rewrite exReqWebp "300x300" "blog/posts".data "cover".data
    "jpg".data "300".data "300".data (by decide) (by decide) (by decide)).trans
    (by decide)

/-- C3 counterexample: for `d=300x` the split on `x` yields the two parts
`"300"` and `""` — not two non-empty parts — yet the Rewriter does not
return the request unmodified: it rewrites the URI to
`/resize/img/300x/png/photo.png`. -/
theorem C3_counterexample :
    splitOnChar 'x' "300x".data = ["300".data, []] ∧
      viewerRequestHandler exReqEmptyDim ≠ exReqEmptyDim ∧
      (viewerRequestHandler exReqEmptyDim).uri = "/resize/img/300x/png/photo.png" := by
  refine ⟨by decide, by decide, by decide⟩

/-- C3 amended: for every request whose query string contains a `d`
parameter, if splitting the `d` value on `x` does not produce exactly two
parts — empty parts are allowed, only the count is checked — the Rewriter
returns the request unmodified. -/
theorem C3_amended_split_passthrough (request : CFRequest) (dval : String)
    (hd : (parseQueryParams request.querystring).lookup "d" = some dval)
    (hlen : (splitOnChar 'x' dval.data).length ≠ 2) :
    viewerRequestHandler request = request := by
  simp only [viewerRequestHandler, hd]
  split
  · rfl
  · split
    · next heq => exact absurd (by rw [heq]; rfl) hlen
    · rfl

/-- Witness for the amended C3: `d=invalid` splits into one part and the
request passes through unchanged. -/
theorem C3_amended_witness : viewerRequestHandler exReqNoDim = exReqNoDim :=
  C3_amended_split_passthrough exReqNoDim "invalid" (by decide) (by decide)

/-! ### Claim theorems: derived-key round trip -/

/-- C8: for every valid tuple — non-empty line-terminator-free subpath,
non-empty decimal digit strings for width and height, non-empty slash-free
format token, and non-empty slash-free filename with extension — the URI
built by the Rewriter, with its leading slash removed, matches the
Orchestrator's derived-key pattern and parses back to exactly the same
subpath, width string, height string, format and filename
(`{filename}.{extension}`): the derived key round-trips as an identical
string between the two handlers. -/
theorem C8_derived_key_round_trips (sub w h f fnb ext : List Char)
    (hsub : sub ≠ []) (hsubd : sub.all isRegexDot)
    (hw : w ≠ []) (hwd : w.all Char.isDigit)
    (hh : h ≠ []) (hhd : h.all Char.isDigit)
    (hf : f ≠ []) (hfs : f.all (fun c => c != '/'))
    (hfnb : fnb ≠ []) (hfnbd : fnb.all isRegexDot)
    (hfnbs : fnb.all (fun c => c != '/'))
    (hextd : ext.all isRegexDot) (hexts : ext.all (fun c => c != '/')) :
    matchKeyPattern ((rewrittenUri ⟨sub⟩ ⟨w⟩ ⟨h⟩ ⟨f⟩ ⟨fnb⟩ ⟨ext⟩).data.drop 1) =
      some (sub, w, h, f, fnb ++ '.' :: ext) := by
  have hs1 : "/resize/".data = '/' :: "resize/".data := rfl
  have hs2 : "/".data = ['/'] := rfl
  have hs3 : "x".data = ['x'] := rfl
  have hs4 : ".".data = ['.'] := rfl
  have hdata : (rewrittenUri ⟨sub⟩ ⟨w⟩ ⟨h⟩ ⟨f⟩ ⟨fnb⟩ ⟨ext⟩).data =
      '/' :: ("resize/".data ++
        (sub ++ '/' :: (w ++ 'x' :: (h ++ '/' :: (f ++ '/' :: (fnb ++ '.' :: ext)))))) := by
    simp only [rewrittenUri, strData_append, hs1, hs2, hs3, hs4]
    simp [List.append_assoc]
  rw [hdata, List.drop_one, List.tail_cons]
  exact matchKeyPattern_exact sub w h f (fnb ++ '.' :: ext) hsub hsubd hw hwd hh hhd hf hfs
    (by simp [hfnb])
    (by simp [List.all_append, List.all_cons, hfnbd, hextd]; rfl)
    (by simp [List.all_append, List.all_cons, hfnbs, hexts])

/-- Witness for C8: the tuple `(blog, 300, 300, webp, cover, jpg)` builds
`/resize/blog/300x300/webp/cover.jpg`, whose key parses back to the same
components. -/
theorem C8_round_trip_witness :
    matchKeyPattern
        ((rewrittenUri ⟨"blog".data⟩ ⟨"300".data⟩ ⟨"300".data⟩ ⟨"webp".data⟩
          ⟨"cover".data⟩ ⟨"jpg".data⟩).data.drop 1) =
      some ("blog".data, "300".data, "300".data, "webp".data,
        "cover".data ++ '.' :: "jpg".data) :=
  C8_derived_key_round_trips "blog".data "300".data "300".data "webp".data
    "cover".data "jpg".data (by decide) (by decide) (by decide) (by decide)
    (by decide) (by decide) (by decide) (by decide) (by decide) (by decide)
    (by decide) (by decide) (by decide)

/-! ### Claim theorems: the Resize Orchestrator -/

/-- A 404 triggering response. -/
def exResp404 : CFResponse :=
  { status := "404", statusDescription := "Not Found", headers := [] }

/-- A 200 triggering response (not in the not-found class). -/
def exResp200 : CFResponse :=
  { status := "200", statusDescription := "OK", headers := [] }

/-- A request for a well-formed derived key. -/
def exOrchReq : CFRequest :=
  { uri := "/resize/blog/300x300/webp/cover.jpg", querystring := "",
    headers := [], method := "GET" }

/-- A request for a derived key whose width exceeds the bound. -/
def exOrchReqBig : CFRequest :=
  { uri := "/resize/blog/4001x300/webp/cover.jpg", querystring := "",
    headers := [], method := "GET" }

/-- A request whose key does not match the derived-key pattern. -/
def exOrchReqBad : CFRequest :=
  { uri := "/foo", querystring := "", headers := [], method := "GET" }

/-- An object store holding one original object. -/
def exGet : String → String → Option (List Nat) :=
  fun _ k => if k = "origin/blog/cover.jpg" then some [1, 2, 3] else none

/-- An object store whose every fetch fails. -/
def exGetNone : String → String → Option (List Nat) :=
  fun _ _ => none

/-- A transform pipeline producing the bytes `[10, 20]`. -/
def exResize : List Nat → Nat → Nat → String → Option (List Nat) :=
  fun _ _ _ _ => some [10, 20]

/-- A transform pipeline whose every run fails. -/
def exResizeNone : List Nat → Nat → Nat → String → Option (List Nat) :=
  fun _ _ _ _ => none

/-- C4: when the triggering status is not in the not-found class
`{404, 403}`, the Orchestrator returns the triggering response unchanged
and performs no object-store read or write. -/
theorem C4_status_passthrough (request : CFRequest) (response : CFResponse)
    (s3Get : String → String → Option (List Nat))
    (sharpResize : List Nat → Nat → Nat → String → Option (List Nat))
    (putOutcome : Except String Unit)
    (hstatus : response.status ≠ "404" ∧ response.status ≠ "403") :
    originResponseHandler request response s3Get sharpResize putOutcome =
      ⟨.passThrough response, [], []⟩ := by
  unfold originResponseHandler
  rw [if_pos hstatus]

/-- Witness for C4: a 200 response passes through with no I/O. -/
theorem C4_status_passthrough_witness :
    originResponseHandler exOrchReq exResp200 exGet exResize (Except.ok ()) =
      ⟨.passThrough exResp200, [], []⟩ :=
  C4_status_passthrough exOrchReq exResp200 exGet exResize (Except.ok ())
    (by decide)

/-- C2: for a triggering status in `{404, 403}` and a path matching the
derived-key pattern, if the parsed width or height is not strictly
positive or exceeds `MAX_DIMENSION = 4000`, the handler returns the
triggering response unmodified. -/
theorem C2_bounds_reject (request : CFRequest) (response : CFResponse)
    (s3Get : String → String → Option (List Nat))
    (sharpResize : List Nat → Nat → Nat → String → Option (List Nat))
    (putOutcome : Except String Unit)
    (hstatus : response.status = "404" ∨ response.status = "403")
    (sub w h f fn : List Char)
    (hkey : matchKeyPattern (request.uri.data.drop 1) = some (sub, w, h, f, fn))
    (hbad : digitsToNat w ≤ 0 ∨ digitsToNat h ≤ 0 ∨
      digitsToNat w > MAX_DIMENSION ∨ digitsToNat h > MAX_DIMENSION) :
    (originResponseHandler request response s3Get sharpResize putOutcome).result =
      .passThrough response := by
  have hcond : ¬(response.status ≠ "404" ∧ response.status ≠ "403") := by
    rcases hstatus with hst | hst <;> simp [hst]
  simp only [originResponseHandler, if_neg hcond, hkey]
  rw [if_pos hbad]

/-- Witness for C2: width `4001` on a 404 passes the response through. -/
theorem C2_bounds_reject_witness :
    (originResponseHandler exOrchReqBig exResp404 exGet exResize
      (Except.ok ())).result = .passThrough exResp404 :=
  C2_bounds_reject exOrchReqBig exResp404 exGet exResize (Except.ok ())
    (Or.inl rfl) "blog".data "4001".data "300".data "webp".data
    "cover.jpg".data (by decide) (by decide)

/-- C5: on the success path — not-found status, well-formed key, in-bounds
dimensions, successful fetch and transform — the returned response is
status 200 with the transformed bytes base64-encoded as body, the marker
`base64` as encoding, and the triggering response's headers with
`content-type` overridden to `image/{mappedFormat}`, where a `jpg` token
maps to `jpeg` and every other token maps to itself. -/
theorem C5_success_response (request : CFRequest) (response : CFResponse)
    (s3Get : String → String → Option (List Nat))
    (sharpResize : List Nat → Nat → Nat → String → Option (List Nat))
    (putOutcome : Except String Unit)
    (hstatus : response.status = "404" ∨ response.status = "403")
    (sub w h f fn : List Char)
    (hkey : matchKeyPattern (request.uri.data.drop 1) = some (sub, w, h, f, fn))
    (hw0 : 0 < digitsToNat w) (hh0 : 0 < digitsToNat h)
    (hwle : digitsToNat w ≤ MAX_DIMENSION) (hhle : digitsToNat h ≤ MAX_DIMENSION)
    (bytes out : List Nat)
    (hget : s3Get BUCKET ("origin/" ++ (⟨sub⟩ : String) ++ "/" ++ (⟨fn⟩ : String)) =
      some bytes)
    (htr : sharpResize bytes (digitsToNat w) (digitsToNat h)
      (if (⟨f⟩ : String) = "jpg" then "jpeg" else (⟨f⟩ : String)) = some out) :
    (originResponseHandler request response s3Get sharpResize putOutcome).result =
      .synthesized 200 "OK" (base64Encode out) "base64"
        (setHeader response.headers "content-type"
          [⟨"Content-Type",
            "image/" ++ (if (⟨f⟩ : String) = "jpg" then "jpeg" else (⟨f⟩ : String))⟩]) := by
  have hcond : ¬(response.status ≠ "404" ∧ response.status ≠ "403") := by
    rcases hstatus with hst | hst <;> simp [hst]
  have hgood : ¬(digitsToNat w ≤ 0 ∨ digitsToNat h ≤ 0 ∨
      digitsToNat w > MAX_DIMENSION ∨ digitsToNat h > MAX_DIMENSION) := by omega
  simp only [originResponseHandler, if_neg hcond, hkey, if_neg hgood, hget, htr]

/-- Witness for C5: the spec scenario yields status 200, body `ChQ=`
(base64 of the transformed bytes `[10, 20]`), marker `base64` and
content-type `image/webp`. -/
theorem C5_success_response_witness :
    (originResponseHandler exOrchReq exResp404 exGet exResize
      (Except.ok ())).result =
      .synthesized 200 "OK" "ChQ=" "base64"
        [("content-type", [⟨"Content-Type", "image/webp"⟩])] :=
  (C5_success_response exOrchReq exResp404 exGet exResize (Except.ok ())
    (Or.inl rfl) "blog".data "300".data "300".data "webp".data
    "cover.jpg".data (by decide) (by decide) (by decide) (by decide)
    (by decide) [1, 2, 3] [10, 20] (by decide) (by decide)).trans (by decide)

/-- C6: on the success path exactly one object-store write is initiated,
at the derived key taken verbatim from the triggering request URI with its
leading slash stripped, with cache-control `max-age=86400`
(`CACHE_CONTROL`) and content-type `image/{mappedFormat}`; and the
returned output is independent of the fire-and-forget write's outcome. -/
theorem C6_single_fire_and_forget_write (request : CFRequest) (response : CFResponse)
    (s3Get : String → String → Option (List Nat))
    (sharpResize : List Nat → Nat → Nat → String → Option (List Nat))
    (putOutcome : Except String Unit)
    (hstatus : response.status = "404" ∨ response.status = "403")
    (sub w h f fn : List Char)
    (hkey : matchKeyPattern (request.uri.data.drop 1) = some (sub, w, h, f, fn))
    (hw0 : 0 < digitsToNat w) (hh0 : 0 < digitsToNat h)
    (hwle : digitsToNat w ≤ MAX_DIMENSION) (hhle : digitsToNat h ≤ MAX_DIMENSION)
    (bytes out : List Nat)
    (hget : s3Get BUCKET ("origin/" ++ (⟨sub⟩ : String) ++ "/" ++ (⟨fn⟩ : String)) =
      some bytes)
    (htr : sharpResize bytes (digitsToNat w) (digitsToNat h)
      (if (⟨f⟩ : String) = "jpg" then "jpeg" else (⟨f⟩ : String)) = some out) :
    (originResponseHandler request response s3Get sharpResize putOutcome).s3Puts =
      [⟨BUCKET, ⟨request.uri.data.drop 1⟩, out,
        "image/" ++ (if (⟨f⟩ : String) = "jpg" then "jpeg" else (⟨f⟩ : String)),
        CACHE_CONTROL⟩] ∧
    (∀ o1 o2 : Except String Unit,
      originResponseHandler request response s3Get sharpResize o1 =
        originResponseHandler request response s3Get sharpResize o2) := by
  have hcond : ¬(response.status ≠ "404" ∧ response.status ≠ "403") := by
    rcases hstatus with hst | hst <;> simp [hst]
  have hgood : ¬(digitsToNat w ≤ 0 ∨ digitsToNat h ≤ 0 ∨
      digitsToNat w > MAX_DIMENSION ∨ digitsToNat h > MAX_DIMENSION) := by omega
  refine ⟨?_, fun o1 o2 => rfl⟩
  simp only [originResponseHandler, if_neg hcond, hkey, if_neg hgood, hget, htr]

/-- Witness for C6: the spec scenario issues exactly the write of
`[10, 20]` to `resize/blog/300x300/webp/cover.jpg` with content-type
`image/webp` and cache-control `max-age=86400`, and a resolved and a
rejected write promise give identical outputs. -/
theorem C6_single_fire_and_forget_write_witness :
    (originResponseHandler exOrchReq exResp404 exGet exResize
        (Except.ok ())).s3Puts =
      [⟨"__S3_BUCKET_PLACEHOLDER__", "resize/blog/300x300/webp/cover.jpg",
        [10, 20], "image/webp", "max-age=86400"⟩] ∧
    originResponseHandler exOrchReq exResp404 exGet exResize (Except.ok ()) =
      originResponseHandler exOrchReq exResp404 exGet exResize
        (Except.error "write failed") := by
  have h := C6_single_fire_and_forget_write exOrchReq exResp404 exGet exResize
    (Except.ok ()) (Or.inl rfl) "blog".data "300".data "300".data "webp".data
    "cover.jpg".data (by decide) (by decide) (by decide) (by decide)
    (by decide) [1, 2, 3] [10, 20] (by decide) (by decide)
  exact ⟨h.1.trans (by decide), h.2 (Except.ok ()) (Except.error "write failed")⟩

/-- C7: when the invocation reaches the fetch and the fetch throws, or the
fetch succeeds and the transform throws, the error is caught and the
triggering response is returned unmodified; the handler is a total
function, so no error propagates to the invoking platform. -/
theorem C7_fetch_transform_failure_passthrough (request : CFRequest)
    (response : CFResponse)
    (s3Get : String → String → Option (List Nat))
    (sharpResize : List Nat → Nat → Nat → String → Option (List Nat))
    (putOutcome : Except String Unit)
    (hstatus : response.status = "404" ∨ response.status = "403")
    (sub w h f fn : List Char)
    (hkey : matchKeyPattern (request.uri.data.drop 1) = some (sub, w, h, f, fn))
    (hw0 : 0 < digitsToNat w) (hh0 : 0 < digitsToNat h)
    (hwle : digitsToNat w ≤ MAX_DIMENSION) (hhle : digitsToNat h ≤ MAX_DIMENSION)
    (hfail : s3Get BUCKET ("origin/" ++ (⟨sub⟩ : String) ++ "/" ++ (⟨fn⟩ : String)) =
        none ∨
      (∃ bytes, s3Get BUCKET ("origin/" ++ (⟨sub⟩ : String) ++ "/" ++ (⟨fn⟩ : String)) =
          some bytes ∧
        sharpResize bytes (digitsToNat w) (digitsToNat h)
          (if (⟨f⟩ : String) = "jpg" then "jpeg" else (⟨f⟩ : String)) = none)) :
    (originResponseHandler request response s3Get sharpResize putOutcome).result =
      .passThrough response := by
  have hcond : ¬(response.status ≠ "404" ∧ response.status ≠ "403") := by
    rcases hstatus with hst | hst <;> simp [hst]
  have hgood : ¬(digitsToNat w ≤ 0 ∨ digitsToNat h ≤ 0 ∨
      digitsToNat w > MAX_DIMENSION ∨ digitsToNat h > MAX_DIMENSION) := by omega
  rcases hfail with hn | ⟨bytes, hb, ht⟩
  · simp only [originResponseHandler, if_neg hcond, hkey, if_neg hgood, hn]
  · simp only [originResponseHandler, if_neg hcond, hkey, if_neg hgood, hb, ht]

/-- Witness for C7: with a store whose every fetch throws, the 404 passes
through. -/
theorem C7_fetch_failure_witness :
    (originResponseHandler exOrchReq exResp404 exGetNone exResize
      (Except.ok ())).result = .passThrough exResp404 :=
  C7_fetch_transform_failure_passthrough exOrchReq exResp404 exGetNone exResize
    (Except.ok ()) (Or.inl rfl) "blog".data "300".data "300".data "webp".data
    "cover.jpg".data (by decide) (by decide) (by decide) (by decide)
    (by decide) (Or.inl rfl)

/-- C10: when the key fails the shape check, or matches but fails the
dimension-bounds check, no object-store operation is performed at all:
the fetch is only issued after both checks pass. -/
theorem C10_no_io_before_checks (request : CFRequest) (response : CFResponse)
    (s3Get : String → String → Option (List Nat))
    (sharpResize : List Nat → Nat → Nat → String → Option (List Nat))
    (putOutcome : Except String Unit)
    (hrej : matchKeyPattern (request.uri.data.drop 1) = none ∨
      (∃ sub w h f fn,
        matchKeyPattern (request.uri.data.drop 1) = some (sub, w, h, f, fn) ∧
        (digitsToNat w ≤ 0 ∨ digitsToNat h ≤ 0 ∨
          digitsToNat w > MAX_DIMENSION ∨ digitsToNat h > MAX_DIMENSION))) :
    (originResponseHandler request response s3Get sharpResize putOutcome).s3Gets = [] ∧
      (originResponseHandler request response s3Get sharpResize putOutcome).s3Puts = [] := by
  by_cases hst : response.status ≠ "404" ∧ response.status ≠ "403"
  · simp only [originResponseHandler, if_pos hst]
    constructor <;> trivial
  · rcases hrej with hn | ⟨sub, w, h, f, fn, hk, hbad⟩
    · simp only [originResponseHandler, if_neg hst, hn]
      constructor <;> trivial
    · simp only [originResponseHandler, if_neg hst, hk]
      rw [if_pos hbad]
      exact ⟨rfl, rfl⟩

/-- Witness for C10: a key that fails the shape check issues no read or
write. -/
theorem C10_no_io_witness :
    (originResponseHandler exOrchReqBad exResp404 exGet exResize
      (Except.ok ())).s3Gets = [] ∧
    (originResponseHandler exOrchReqBad exResp404 exGet exResize
      (Except.ok ())).s3Puts = [] :=
  C10_no_io_before_checks exOrchReqBad exResp404 exGet exResize (Except.ok ())
    (Or.inl (by decide))
